import Mathlib

/-!
Verification of the Deplot model-interface adapter
(`src/nv_ingest/util/nim/deplot.py`).

The adapter is pure request/response marshaling: it decodes base64 images
(via an external decoder, modelled here as a function parameter), formats
requests for a binary (gRPC) protocol or a text (HTTP/JSON) protocol, and
parses responses back into plain strings.

Modelling choices:
- A NumPy array is a shape (list of dimension sizes) together with a flat
  row-major data list of rational values; `astype(float32)` followed by
  `/= 255.0` is modelled exactly as division by 255 over `ℚ`.
- The Python input dict is a structure with the three keys the code touches
  (`base64_image`, `base64_images`, `image_arrays`), each optional; the value
  under `base64_images` may be a list of strings or some non-list value.
- Python exceptions become an error type (`Except`); each variant notes the
  Python exception class it stands for.
- The external UTF-8 byte decoder is a function parameter `dec`.
-/

/-- A NumPy ndarray: its shape and its flat row-major data (pixel values as
rationals; decoded uint8 images carry values in [0, 255]). -/
structure NDArray where
  shape : List Nat
  data : List ℚ
deriving DecidableEq

/-- The value found under the `base64_images` key of the input dict: either a
genuine Python list of strings, or some value of another type. -/
inductive B64ImagesVal where
  | strList (l : List String)
  | nonList
deriving DecidableEq

/-- The input dict, restricted to the three keys the adapter reads or writes.
`none` models an absent key. -/
structure InputData where
  base64_image : Option String
  base64_images : Option B64ImagesVal
  image_arrays : Option (List NDArray)

/-- The Python exceptions raised by the adapter, under the spec's taxonomy
names. -/
inductive DeplotError where
  | missingInput        -- KeyError: neither base64_image nor base64_images
  | invalidInputType    -- ValueError: base64_images is not a list
  | missingImageArrays  -- KeyError: image_arrays absent (format before prepare)
  | emptyInput          -- ValueError: no valid images for gRPC formatting
  | shapeMismatch       -- ValueError: differing image dimensions for gRPC
  | invalidProtocol     -- ValueError: protocol is neither grpc nor http
  | malformedResponse   -- RuntimeError: choices key missing or empty
  | typeError           -- TypeError: chunking a non-list value
deriving DecidableEq

/-- `prepare_data_for_inference`: decode one or more base64 images into arrays,
storing them under `image_arrays`. The `base64_images` key is consulted first;
`base64_image` is the single-image fallback. `decode` is the external
`base64_to_numpy` collaborator. -/
def prepare_data_for_inference (decode : String → NDArray) (data : InputData) :
    Except DeplotError InputData :=
  match data.base64_images with
  | some (B64ImagesVal.strList l) =>
      Except.ok (InputData.mk data.base64_image data.base64_images (some (l.map decode)))
  | some B64ImagesVal.nonList => Except.error DeplotError.invalidInputType
  | none =>
      match data.base64_image with
      | some s =>
          Except.ok (InputData.mk data.base64_image data.base64_images (some [decode s]))
      | none => Except.error DeplotError.missingInput

/-- The local `chunk_list` helper of `format_input`:
`[lst[i : i + chunk_size] for i in range(0, len(lst), chunk_size)]`. -/
def chunk_list {α : Type} : List α → Nat → List (List α)
  | [], _ => []
  | _ :: _, 0 => []
  | a :: t, c + 1 => (a :: t).take (c + 1) :: chunk_list (t.drop c) (c + 1)
termination_by l _ => l.length
decreasing_by
  simp [List.length_drop]
  omega

/-- Per-image gRPC normalization: `np.expand_dims(arr, 0)` when `arr.ndim == 3`,
then `astype(float32)` and `arr /= 255.0`. -/
def grpcProcessArray (arr : NDArray) : NDArray :=
  let arr2 := if arr.shape.length = 3 then NDArray.mk (1 :: arr.shape) arr.data else arr
  NDArray.mk arr2.shape (arr2.data.map (fun v => v / 255))

/-- `np.concatenate(chunk, axis=0)`: batch sizes add up, trailing dimensions are
those of the first array, flat data lists are concatenated in order. -/
def np_concatenate0 (chunk : List NDArray) : NDArray :=
  NDArray.mk
    ((chunk.map (fun a => a.shape.headD 0)).sum :: (chunk.headD (NDArray.mk [] [])).shape.tail)
    ((chunk.map NDArray.data).flatten)

/-- One HTTP chat message. -/
structure DeplotMessage where
  role : String
  content : String
deriving DecidableEq

/-- The HTTP payload built by `_prepare_deplot_payload`. -/
structure DeplotPayload where
  model : String
  messages : List DeplotMessage
  max_tokens : Nat
  stream : Bool
  temperature : ℚ
  top_p : ℚ
deriving DecidableEq

/-- The content string of one user message: the fixed instruction followed by a
data-URI embedding of the base64 image. -/
def deplotMessageContent (b64 : String) : String :=
  "Generate the underlying data table of the figure below: <img src=\"data:image/png;base64," ++ b64 ++ "\" />"

/-- `_prepare_deplot_payload`: one user message per image, fixed model
identifier, `stream: False`, and the given generation parameters. -/
def prepare_deplot_payload (base64_list : List String) (max_tokens : Nat)
    (temperature : ℚ) (top_p : ℚ) : DeplotPayload :=
  DeplotPayload.mk "google/deplot"
    (base64_list.map (fun b => DeplotMessage.mk "user" (deplotMessageContent b)))
    max_tokens false temperature top_p

/-- The keyword arguments `format_input` consults via `kwargs.get`. -/
structure GenParams where
  max_tokens : Option Nat
  temperature : Option ℚ
  top_p : Option ℚ

/-- The result of `format_input`: a list of batched arrays (gRPC) or a list of
payload dicts (HTTP). -/
inductive FormattedInput where
  | grpcBatches (batches : List NDArray)
  | httpPayloads (payloads : List DeplotPayload)
deriving DecidableEq

/-- `format_input`: requires `image_arrays`; for gRPC it normalizes every array,
rejects an empty list, rejects mismatched trailing dimensions, and concatenates
chunks of at most `max_batch_size` arrays; for HTTP it chunks the original
base64 strings and builds one payload per chunk, with defaults
`max_tokens=500`, `temperature=0.5`, `top_p=0.9`. -/
def format_input (data : InputData) (protocol : String) (max_batch_size : Nat)
    (kwargs : GenParams) : Except DeplotError FormattedInput :=
  match data.image_arrays with
  | none => Except.error DeplotError.missingImageArrays
  | some image_arrays =>
    if protocol = "grpc" then
      let processed := image_arrays.map grpcProcessArray
      if processed = [] then Except.error DeplotError.emptyInput
      else
        let shapes := processed.map (fun p => p.shape.tail)
        if shapes.tail.any (fun s => decide (s ≠ shapes.headD ([] : List Nat))) then
          Except.error DeplotError.shapeMismatch
        else
          Except.ok (FormattedInput.grpcBatches
            ((chunk_list processed max_batch_size).map np_concatenate0))
    else if protocol = "http" then
      match data.base64_images with
      | some (B64ImagesVal.strList base64_list) =>
          Except.ok (FormattedInput.httpPayloads
            ((chunk_list base64_list max_batch_size).map (fun chunk =>
              prepare_deplot_payload chunk (kwargs.max_tokens.getD 500)
                (kwargs.temperature.getD (1/2)) (kwargs.top_p.getD (9/10)))))
      | some B64ImagesVal.nonList => Except.error DeplotError.typeError
      | none =>
          match data.base64_image with
          | some s =>
              Except.ok (FormattedInput.httpPayloads
                ((chunk_list [s] max_batch_size).map (fun chunk =>
                  prepare_deplot_payload chunk (kwargs.max_tokens.getD 500)
                    (kwargs.temperature.getD (1/2)) (kwargs.top_p.getD (9/10)))))
          | none => Except.error DeplotError.missingInput
    else Except.error DeplotError.invalidProtocol

/-- A raw byte string, as a list of byte values; UTF-8 decoding is external. -/
abbrev ByteString := List Nat

/-- One element of a gRPC response sequence: a Python list of byte strings, a
single byte string, or any other value (carried as its `str()` rendering). -/
inductive GrpcItem where
  | byteList (l : List ByteString)
  | bytes (b : ByteString)
  | other (s : String)
deriving DecidableEq

/-- The per-element translation inside the gRPC branch of `parse_output`:
a list of byte strings is decoded memberwise and joined with single spaces, a
byte string is decoded, anything else is stringified. -/
def grpcItemToString (dec : ByteString → String) : GrpcItem → String
  | GrpcItem.byteList l => String.intercalate " " (l.map dec)
  | GrpcItem.bytes b => dec b
  | GrpcItem.other s => s

/-- The gRPC branch of `parse_output`: one output string per response element,
in response order. -/
def parse_output_grpc (dec : ByteString → String) (response : List GrpcItem) :
    List String :=
  response.map (grpcItemToString dec)

/-- The `message` object inside one HTTP `choices` entry. -/
structure DeplotChoiceMessage where
  content : String
deriving DecidableEq

/-- One entry of the HTTP response's `choices` list. -/
structure DeplotChoice where
  message : DeplotChoiceMessage
deriving DecidableEq

/-- The HTTP JSON response: a dict whose `choices` key (when present) holds a
list of choices. -/
structure DeplotHttpResponse where
  choices : Option (List DeplotChoice)
deriving DecidableEq

/-- `_extract_content_from_deplot_response` (the HTTP branch of
`parse_output`): error when `choices` is missing or empty, else the content of
the first choice's message. -/
def extract_content_from_deplot_response (r : DeplotHttpResponse) :
    Except DeplotError String :=
  match r.choices with
  | none => Except.error DeplotError.malformedResponse
  | some [] => Except.error DeplotError.malformedResponse
  | some (c :: _) => Except.ok c.message.content

/-- `process_inference_results`: the identity pass-through stage. -/
def process_inference_results {α : Type} (output : α) (_protocol : String) : α :=
  output

/-! ## Lemmas about `chunk_list` -/

theorem chunk_list_flatten {α : Type} (l : List α) (c : Nat) (hc : 0 < c) :
    (chunk_list l c).flatten = l := by
  revert hc
  induction l, c using chunk_list.induct with
  | case1 c => intro _; simp [chunk_list]
  | case2 a t => intro h; omega
  | case3 a t c ih =>
      intro _
      simp only [chunk_list, List.flatten_cons, ih (Nat.succ_pos c), List.take_succ_cons,
        List.cons_append, List.take_append_drop]

theorem chunk_list_length {α : Type} (l : List α) (c : Nat) (hc : 0 < c) :
    (chunk_list l c).length = (l.length + c - 1) / c := by
  revert hc
  induction l, c using chunk_list.induct with
  | case1 c =>
      intro hc
      simp only [chunk_list, List.length_nil, List.length, Nat.zero_add]
      exact (Nat.div_eq_of_lt (by omega)).symm
  | case2 a t => intro h; omega
  | case3 a t c ih =>
      intro _
      simp only [chunk_list, List.length_cons, ih (Nat.succ_pos c), List.length_drop]
      have e2 : t.length + 1 + (c + 1) - 1 = t.length + (c + 1) := by omega
      rw [e2, Nat.add_div_right _ (Nat.succ_pos c)]
      rcases le_or_lt c t.length with h | h
      · have e1 : t.length - c + (c + 1) - 1 = t.length := by omega
        rw [e1]
      · have e1 : t.length - c + (c + 1) - 1 = c := by omega
        rw [e1, Nat.div_eq_of_lt (by omega), Nat.div_eq_of_lt (by omega)]

theorem chunk_list_mem_length_le {α : Type} (l : List α) (c : Nat) :
    ∀ ch ∈ chunk_list l c, ch.length ≤ c := by
  induction l, c using chunk_list.induct with
  | case1 c => simp [chunk_list]
  | case2 a t => simp [chunk_list]
  | case3 a t c ih =>
      intro ch hch
      simp only [chunk_list, List.mem_cons] at hch
      rcases hch with h | h
      · subst h
        rw [List.length_take]
        exact min_le_left _ _
      · exact ih ch h

theorem chunk_list_mem_ne_nil {α : Type} (l : List α) (c : Nat) :
    ∀ ch ∈ chunk_list l c, ch ≠ [] := by
  induction l, c using chunk_list.induct with
  | case1 c => simp [chunk_list]
  | case2 a t => simp [chunk_list]
  | case3 a t c ih =>
      intro ch hch
      simp only [chunk_list, List.mem_cons] at hch
      rcases hch with h | h
      · subst h; simp [List.take_succ_cons]
      · exact ih ch h

theorem chunk_list_mem_mem {α : Type} (l : List α) (c : Nat) (hc : 0 < c) :
    ∀ ch ∈ chunk_list l c, ∀ x ∈ ch, x ∈ l := by
  intro ch hch x hx
  rw [← chunk_list_flatten l c hc]
  exact List.mem_flatten.mpr ⟨ch, hch, hx⟩

/-! ## Lemmas about gRPC normalization and concatenation -/

theorem grpcProcessArray_of_ndim3 (a : NDArray) (h : a.shape.length = 3) :
    grpcProcessArray a = NDArray.mk (1 :: a.shape) (a.data.map (fun v => v / 255)) := by
  simp [grpcProcessArray, h]

theorem sum_map_eq_length {α : Type} (l : List α) (f : α → Nat)
    (h : ∀ a ∈ l, f a = 1) : (l.map f).sum = l.length := by
  induction l with
  | nil => rfl
  | cons a t ih =>
      simp only [List.map_cons, List.sum_cons, List.length_cons,
        h a (List.mem_cons_self a t), ih (fun x hx => h x (List.mem_cons_of_mem a hx))]
      omega

theorem np_concatenate0_shape (ch : List NDArray) (s0 : List Nat)
    (hne : ch ≠ []) (hh : ∀ a ∈ ch, a.shape = 1 :: s0) :
    (np_concatenate0 ch).shape = ch.length :: s0 := by
  obtain ⟨c0, ct, rfl⟩ : ∃ c0 ct, ch = c0 :: ct := by
    cases ch with
    | nil => exact absurd rfl hne
    | cons c0 ct => exact ⟨c0, ct, rfl⟩
  have hsum : ((c0 :: ct).map (fun a => a.shape.headD 0)).sum = (c0 :: ct).length := by
    refine sum_map_eq_length _ _ (fun a ha => ?_)
    rw [hh a ha]
    rfl
  simp only [np_concatenate0, hsum, List.headD_cons, hh c0 (List.mem_cons_self c0 ct),
    List.tail_cons]

theorem np_concatenate0_data (ch : List NDArray) :
    (np_concatenate0 ch).data = (ch.map NDArray.data).flatten := rfl

theorem flatten_map_concat_data (chs : List (List NDArray)) :
    ((chs.map np_concatenate0).map NDArray.data).flatten =
      ((chs.flatten).map NDArray.data).flatten := by
  induction chs with
  | nil => rfl
  | cons ch t ih =>
      simp only [List.map_cons, List.flatten_cons, np_concatenate0, List.map_append,
        List.flatten_append, ih]

/-- Evaluation of the gRPC branch of `format_input` when every image is a 3-D
array of one common shape `s0` and the list is non-empty: the result is the
chunked concatenation of the normalized arrays. -/
theorem format_input_grpc_eq (data : InputData) (images : List NDArray) (C : Nat)
    (kw : GenParams) (s0 : List Nat)
    (hdata : data.image_arrays = some images)
    (hne : images ≠ [])
    (hdim : s0.length = 3)
    (hall : ∀ a ∈ images, a.shape = s0) :
    format_input data "grpc" C kw =
      Except.ok (FormattedInput.grpcBatches
        ((chunk_list (images.map grpcProcessArray) C).map np_concatenate0)) := by
  obtain ⟨a0, rest, rfl⟩ : ∃ a0 rest, images = a0 :: rest := by
    cases images with
    | nil => exact absurd rfl hne
    | cons a r => exact ⟨a, r, rfl⟩
  have hgsh : ∀ a ∈ a0 :: rest, (grpcProcessArray a).shape = 1 :: s0 := by
    intro a ha
    rw [grpcProcessArray_of_ndim3 a (by rw [hall a ha, hdim]), hall a ha]
  have hany : (((a0 :: rest).map grpcProcessArray).map (fun p => p.shape.tail)).tail.any
      (fun s => decide (s ≠ (((a0 :: rest).map grpcProcessArray).map
        (fun p => p.shape.tail)).headD ([] : List Nat))) = false := by
    simp only [List.map_cons, List.tail_cons, List.headD_cons]
    rw [List.any_eq_false]
    intro x hx
    simp only [List.mem_map] at hx
    obtain ⟨p, hp, rfl⟩ := hx
    obtain ⟨a, ha, rfl⟩ := hp
    simp [hgsh a (List.mem_cons_of_mem a0 ha), hgsh a0 (List.mem_cons_self a0 rest)]
  simp only [format_input, hdata]
  rw [if_pos trivial, if_neg (by simp), if_neg (by rw [hany]; exact Bool.false_ne_true)]

theorem processed_shape (images : List NDArray) (s0 : List Nat) (hdim : s0.length = 3)
    (hall : ∀ a ∈ images, a.shape = s0) :
    ∀ p ∈ images.map grpcProcessArray, p.shape = 1 :: s0 := by
  intro p hp
  obtain ⟨a, ha, rfl⟩ := List.mem_map.mp hp
  rw [grpcProcessArray_of_ndim3 a (by rw [hall a ha, hdim]), hall a ha]

theorem grpc_batches_sum (images : List NDArray) (C : Nat) (s0 : List Nat)
    (hC : 0 < C) (hdim : s0.length = 3) (hall : ∀ a ∈ images, a.shape = s0) :
    (((chunk_list (images.map grpcProcessArray) C).map np_concatenate0).map
      (fun b => b.shape.headD 0)).sum = images.length := by
  rw [List.map_map]
  have hcongr : (chunk_list (images.map grpcProcessArray) C).map
      ((fun b => b.shape.headD 0) ∘ np_concatenate0) =
      (chunk_list (images.map grpcProcessArray) C).map List.length := by
    refine List.map_congr_left (fun ch hch => ?_)
    simp only [Function.comp_apply]
    rw [np_concatenate0_shape ch s0 (chunk_list_mem_ne_nil _ _ ch hch)
      (fun a ha => processed_shape images s0 hdim hall a
        (chunk_list_mem_mem _ _ hC ch hch a ha))]
    rfl
  rw [hcongr, ← List.length_flatten, chunk_list_flatten _ _ hC, List.length_map]

/-- Claim C1: for every list of N decoded 3-D images of one common shape and
every positive batch cap C, the gRPC `format_input` produces `⌈N/C⌉` request
batches, each containing at most C images (the leading batch dimension),
and concatenating the batches' data in order reconstructs the images'
normalized data in the original order; so `max_batch_size` strictly bounds
the number of images in any single physical request. -/
theorem c1_grpc_chunking (data : InputData) (images : List NDArray) (C : Nat)
    (kw : GenParams) (s0 : List Nat)
    (hdata : data.image_arrays = some images)
    (hC : 0 < C) (hne : images ≠ [])
    (hdim : s0.length = 3) (hall : ∀ a ∈ images, a.shape = s0) :
    ∃ batches : List NDArray,
      format_input data "grpc" C kw = Except.ok (FormattedInput.grpcBatches batches) ∧
      batches.length = (images.length + C - 1) / C ∧
      (∀ b ∈ batches, b.shape.headD 0 ≤ C) ∧
      (batches.map (fun b => b.shape.headD 0)).sum = images.length ∧
      (batches.map NDArray.data).flatten =
        ((images.map grpcProcessArray).map NDArray.data).flatten := by
  refine ⟨_, format_input_grpc_eq data images C kw s0 hdata hne hdim hall,
    ?_, ?_, grpc_batches_sum images C s0 hC hdim hall, ?_⟩
  · rw [List.length_map, chunk_list_length _ _ hC, List.length_map]
  · intro b hb
    obtain ⟨ch, hch, rfl⟩ := List.mem_map.mp hb
    rw [np_concatenate0_shape ch s0 (chunk_list_mem_ne_nil _ _ ch hch)
      (fun a ha => processed_shape images s0 hdim hall a
        (chunk_list_mem_mem _ _ hC ch hch a ha))]
    exact chunk_list_mem_length_le _ _ ch hch
  · rw [flatten_map_concat_data, chunk_list_flatten _ _ hC]

/-- Witness for C1 at three 1×1×3 images and cap 2. -/
theorem c1_grpc_chunking_witness :
    ∃ batches : List NDArray,
      format_input
        (InputData.mk none none (some [NDArray.mk [1, 1, 3] [0, 128, 255],
          NDArray.mk [1, 1, 3] [10, 20, 30], NDArray.mk [1, 1, 3] [1, 2, 3]]))
        "grpc" 2 (GenParams.mk none none none) =
        Except.ok (FormattedInput.grpcBatches batches) ∧
      batches.length = (([NDArray.mk [1, 1, 3] [0, 128, 255],
          NDArray.mk [1, 1, 3] [10, 20, 30],
          NDArray.mk [1, 1, 3] [1, 2, 3]] : List NDArray).length + 2 - 1) / 2 ∧
      (∀ b ∈ batches, b.shape.headD 0 ≤ 2) ∧
      (batches.map (fun b => b.shape.headD 0)).sum =
        ([NDArray.mk [1, 1, 3] [0, 128, 255], NDArray.mk [1, 1, 3] [10, 20, 30],
          NDArray.mk [1, 1, 3] [1, 2, 3]] : List NDArray).length ∧
      (batches.map NDArray.data).flatten =
        ((([NDArray.mk [1, 1, 3] [0, 128, 255], NDArray.mk [1, 1, 3] [10, 20, 30],
          NDArray.mk [1, 1, 3] [1, 2, 3]] : List NDArray).map
            grpcProcessArray).map NDArray.data).flatten :=
  c1_grpc_chunking _ _ 2 _ [1, 1, 3] rfl (by decide) (by decide) (by decide)
    (by decide)

/-- Claim C2: order-preserving round trip through the gRPC pipeline. Formatting
a valid image list succeeds with batches whose batch dimensions sum to the
number of input images, so the corresponding response carries one element per
input image; parsing such a response yields exactly one string per input image,
and the string at position i is the translation of the response element at
position i (which the service produced for the image at position i, batches
being concatenated in chunk order and chunks in input order). -/
theorem c2_roundtrip_order (dec : ByteString → String) (data : InputData)
    (images : List NDArray) (C : Nat) (kw : GenParams) (s0 : List Nat)
    (hdata : data.image_arrays = some images) (hC : 0 < C) (hne : images ≠ [])
    (hdim : s0.length = 3) (hall : ∀ a ∈ images, a.shape = s0) :
    ∃ batches : List NDArray,
      format_input data "grpc" C kw = Except.ok (FormattedInput.grpcBatches batches) ∧
      (batches.map (fun b => b.shape.headD 0)).sum = images.length ∧
      ∀ response : List GrpcItem,
        response.length = (batches.map (fun b => b.shape.headD 0)).sum →
        (parse_output_grpc dec response).length = images.length ∧
        ∀ (i : Nat) (hi : i < (parse_output_grpc dec response).length)
          (hi2 : i < response.length),
          (parse_output_grpc dec response).get ⟨i, hi⟩ =
            grpcItemToString dec (response.get ⟨i, hi2⟩) := by
  refine ⟨_, format_input_grpc_eq data images C kw s0 hdata hne hdim hall,
    grpc_batches_sum images C s0 hC hdim hall, ?_⟩
  intro response hresp
  constructor
  · rw [parse_output_grpc, List.length_map, hresp,
      grpc_batches_sum images C s0 hC hdim hall]
  · intro i hi hi2
    simp only [parse_output_grpc, List.get_eq_getElem, List.getElem_map]

/-- Witness for C2 at two 1×1×3 images, cap 1, and a two-element response. -/
theorem c2_roundtrip_order_witness :
    ∃ batches : List NDArray,
      format_input
        (InputData.mk none none (some [NDArray.mk [1, 1, 3] [0, 0, 255],
          NDArray.mk [1, 1, 3] [9, 9, 9]]))
        "grpc" 1 (GenParams.mk none none none) =
        Except.ok (FormattedInput.grpcBatches batches) ∧
      (batches.map (fun b => b.shape.headD 0)).sum =
        ([NDArray.mk [1, 1, 3] [0, 0, 255],
          NDArray.mk [1, 1, 3] [9, 9, 9]] : List NDArray).length ∧
      ∀ response : List GrpcItem,
        response.length = (batches.map (fun b => b.shape.headD 0)).sum →
        (parse_output_grpc (fun b => String.mk (b.map Char.ofNat)) response).length =
          ([NDArray.mk [1, 1, 3] [0, 0, 255],
            NDArray.mk [1, 1, 3] [9, 9, 9]] : List NDArray).length ∧
        ∀ (i : Nat)
          (hi : i < (parse_output_grpc (fun b => String.mk (b.map Char.ofNat)) response).length)
          (hi2 : i < response.length),
          (parse_output_grpc (fun b => String.mk (b.map Char.ofNat)) response).get ⟨i, hi⟩ =
            grpcItemToString (fun b => String.mk (b.map Char.ofNat)) (response.get ⟨i, hi2⟩) :=
  c2_roundtrip_order _ _ _ 1 _ [1, 1, 3] rfl (by decide) (by decide) (by decide)
    (by decide)

/-- Claim C3: two 3-D images of differing (H, W, C) dimensions always make the
gRPC `format_input` fail with the shape-mismatch error (the Python ValueError
the spec names ShapeMismatchError), for any batch cap; and an empty image list
makes it fail with the empty-input error (EmptyInputError). -/
theorem c3_shape_mismatch_and_empty (data d2 : InputData) (a b : NDArray)
    (C C2 : Nat) (kw kw2 : GenParams)
    (ha : a.shape.length = 3) (hb : b.shape.length = 3) (hab : a.shape ≠ b.shape)
    (hdata : data.image_arrays = some [a, b])
    (hd2 : d2.image_arrays = some []) :
    format_input data "grpc" C kw = Except.error DeplotError.shapeMismatch ∧
    format_input d2 "grpc" C2 kw2 = Except.error DeplotError.emptyInput := by
  constructor
  · have h1 : (grpcProcessArray a).shape = 1 :: a.shape :=
      congrArg NDArray.shape (grpcProcessArray_of_ndim3 a ha)
    have h2 : (grpcProcessArray b).shape = 1 :: b.shape :=
      congrArg NDArray.shape (grpcProcessArray_of_ndim3 b hb)
    simp only [format_input, hdata]
    rw [if_pos trivial, if_neg (by simp)]
    rw [if_pos]
    simp only [List.map_cons, List.map_nil, List.tail_cons, List.headD_cons,
      List.any_cons, List.any_nil, h1, h2, List.tail_cons, Bool.or_false,
      decide_eq_true_eq]
    exact fun h => hab h.symm
  · simp [format_input, hd2]

/-- Witness for C3 at a 1×1×3 and a 2×1×3 image. -/
theorem c3_shape_mismatch_and_empty_witness :
    format_input
        (InputData.mk none none (some [NDArray.mk [1, 1, 3] [0, 0, 0],
          NDArray.mk [2, 1, 3] [0, 0, 0, 0, 0, 0]]))
        "grpc" 2 (GenParams.mk none none none) =
      Except.error DeplotError.shapeMismatch ∧
    format_input (InputData.mk none none (some [])) "grpc" 3
        (GenParams.mk none none none) =
      Except.error DeplotError.emptyInput :=
  c3_shape_mismatch_and_empty _ _ _ _ 2 3 _ _ (by decide) (by decide) (by decide)
    rfl rfl

/-- Claim C4: an input mapping with neither `base64_image` nor `base64_images`
makes `prepare_data_for_inference` fail with the missing-input error (the
Python KeyError the spec names MissingInputError); a mapping whose
`base64_images` value is not a list fails with the invalid-input-type error
(the Python ValueError the spec names InvalidInputTypeError). -/
theorem c4_prepare_errors (decode : String → NDArray) (d1 d2 : InputData)
    (h1a : d1.base64_image = none) (h1b : d1.base64_images = none)
    (h2 : d2.base64_images = some B64ImagesVal.nonList) :
    prepare_data_for_inference decode d1 = Except.error DeplotError.missingInput ∧
    prepare_data_for_inference decode d2 = Except.error DeplotError.invalidInputType := by
  constructor
  · simp [prepare_data_for_inference, h1a, h1b]
  · simp [prepare_data_for_inference, h2]

/-- Witness for C4 at an empty mapping and at a mapping whose `base64_images`
holds a non-list value. -/
theorem c4_prepare_errors_witness :
    prepare_data_for_inference (fun _ => NDArray.mk [] [])
        (InputData.mk none none none) =
      Except.error DeplotError.missingInput ∧
    prepare_data_for_inference (fun _ => NDArray.mk [] [])
        (InputData.mk (some "img") (some B64ImagesVal.nonList) none) =
      Except.error DeplotError.invalidInputType :=
  c4_prepare_errors _ _ _ rfl rfl rfl

/-- Claim C5: gRPC normalization. Every 3-D (H, W, C) array is promoted to a
4-D batch-of-one with its values scaled by 1/255 (the float32 cast and scale
are modelled exactly over ℚ), and for images with pixel values in [0, 255]
every produced request batch is a 4-D array with all values in [0, 1]. -/
theorem c5_grpc_normalization (data : InputData) (images : List NDArray)
    (C : Nat) (kw : GenParams) (s0 : List Nat)
    (hdata : data.image_arrays = some images) (hC : 0 < C) (hne : images ≠ [])
    (hdim : s0.length = 3) (hall : ∀ a ∈ images, a.shape = s0)
    (hvals : ∀ a ∈ images, ∀ v ∈ a.data, 0 ≤ v ∧ v ≤ 255) :
    (∀ a : NDArray, a.shape.length = 3 →
      grpcProcessArray a = NDArray.mk (1 :: a.shape) (a.data.map (fun v => v / 255))) ∧
    ∃ batches : List NDArray,
      format_input data "grpc" C kw = Except.ok (FormattedInput.grpcBatches batches) ∧
      ∀ b ∈ batches, b.shape.length = 4 ∧ ∀ v ∈ b.data, 0 ≤ v ∧ v ≤ 1 := by
  refine ⟨grpcProcessArray_of_ndim3, _,
    format_input_grpc_eq data images C kw s0 hdata hne hdim hall, ?_⟩
  intro b hb
  obtain ⟨ch, hch, rfl⟩ := List.mem_map.mp hb
  constructor
  · rw [np_concatenate0_shape ch s0 (chunk_list_mem_ne_nil _ _ ch hch)
      (fun a ha => processed_shape images s0 hdim hall a
        (chunk_list_mem_mem _ _ hC ch hch a ha))]
    rw [List.length_cons, hdim]
  · intro v hv
    rw [np_concatenate0_data, List.mem_flatten] at hv
    obtain ⟨dl, hdl, hvdl⟩ := hv
    obtain ⟨p, hp, rfl⟩ := List.mem_map.mp hdl
    obtain ⟨a, ha, rfl⟩ := List.mem_map.mp (chunk_list_mem_mem _ _ hC ch hch p hp)
    rw [grpcProcessArray_of_ndim3 a (by rw [hall a ha, hdim])] at hvdl
    obtain ⟨w, hw, rfl⟩ := List.mem_map.mp hvdl
    have hwv := hvals a ha w hw
    constructor
    · exact div_nonneg hwv.1 (by norm_num)
    · rw [div_le_one (by norm_num : (0 : ℚ) < 255)]
      exact hwv.2

/-- Witness for C5 at two 1×1×3 uint8 images and cap 2. -/
theorem c5_grpc_normalization_witness :
    (∀ a : NDArray, a.shape.length = 3 →
      grpcProcessArray a = NDArray.mk (1 :: a.shape) (a.data.map (fun v => v / 255))) ∧
    ∃ batches : List NDArray,
      format_input
        (InputData.mk none none (some [NDArray.mk [1, 1, 3] [0, 128, 255],
          NDArray.mk [1, 1, 3] [7, 8, 9]]))
        "grpc" 2 (GenParams.mk none none none) =
        Except.ok (FormattedInput.grpcBatches batches) ∧
      ∀ b ∈ batches, b.shape.length = 4 ∧ ∀ v ∈ b.data, 0 ≤ v ∧ v ≤ 1 :=
  c5_grpc_normalization _ _ 2 _ [1, 1, 3] rfl (by decide) (by decide) (by decide)
    (by decide) (by decide)

/-- Claim C6: HTTP formatting chunks the original base64 strings (not the
decoded arrays: the result depends only on the string list, for every value of
`image_arrays`) into groups of at most `max_batch_size`; each chunk becomes one
payload with one user message per image whose content is the fixed instruction
string followed by the embedded data-URI of the base64 image, the model
identifier "google/deplot", `stream = false`, and with empty kwargs the
defaults `max_tokens = 500`, `temperature = 1/2`, `top_p = 9/10`; the chunks
concatenate back to the original string list in order. -/
theorem c6_http_formatting (data : InputData) (l : List String)
    (arrs : List NDArray) (C : Nat)
    (himg : data.image_arrays = some arrs)
    (hb : data.base64_images = some (B64ImagesVal.strList l))
    (hC : 0 < C) :
    format_input data "http" C (GenParams.mk none none none) =
      Except.ok (FormattedInput.httpPayloads ((chunk_list l C).map (fun chunk =>
        DeplotPayload.mk "google/deplot"
          (chunk.map (fun b => DeplotMessage.mk "user"
            ("Generate the underlying data table of the figure below: <img src=\"data:image/png;base64," ++ b ++ "\" />")))
          500 false (1/2) (9/10)))) ∧
    (∀ ch ∈ chunk_list l C, ch.length ≤ C) ∧
    (chunk_list l C).flatten = l := by
  refine ⟨?_, chunk_list_mem_length_le l C, chunk_list_flatten l C hC⟩
  simp only [format_input, himg, hb]
  rw [if_neg (by simp), if_pos trivial]
  rfl

/-- Witness for C6 at three base64 strings and cap 2. -/
theorem c6_http_formatting_witness :
    format_input
        (InputData.mk (some "zzz") (some (B64ImagesVal.strList ["a", "b", "c"]))
          (some [NDArray.mk [1, 1, 3] [0, 0, 0]]))
        "http" 2 (GenParams.mk none none none) =
      Except.ok (FormattedInput.httpPayloads
        ((chunk_list ["a", "b", "c"] 2).map (fun chunk =>
          DeplotPayload.mk "google/deplot"
            (chunk.map (fun b => DeplotMessage.mk "user"
              ("Generate the underlying data table of the figure below: <img src=\"data:image/png;base64," ++ b ++ "\" />")))
            500 false (1/2) (9/10)))) ∧
    (∀ ch ∈ chunk_list ["a", "b", "c"] 2, ch.length ≤ 2) ∧
    (chunk_list ["a", "b", "c"] 2).flatten = ["a", "b", "c"] :=
  c6_http_formatting _ _ _ 2 rfl rfl (by decide)

/-- Claim C7: text-protocol parsing. For every response whose `choices` list is
non-empty, the HTTP parse returns `choices[0].message.content`; and it fails
with the malformed-response error (the Python RuntimeError the spec names
MalformedResponseError) exactly when `choices` is absent or empty. -/
theorem c7_http_parse (r : DeplotHttpResponse) :
    (∀ (c : DeplotChoice) (rest : List DeplotChoice),
      r.choices = some (c :: rest) →
      extract_content_from_deplot_response r = Except.ok c.message.content) ∧
    (extract_content_from_deplot_response r =
        Except.error DeplotError.malformedResponse ↔
      (r.choices = none ∨ r.choices = some [])) := by
  obtain ⟨co⟩ := r
  cases co with
  | none =>
      refine ⟨fun c rest h => (by cases h), ?_⟩
      simp [extract_content_from_deplot_response]
  | some lst =>
      cases lst with
      | nil =>
          refine ⟨fun c rest h => (by simp at h), ?_⟩
          simp [extract_content_from_deplot_response]
      | cons c rest =>
          refine ⟨fun c2 r2 h => ?_, ?_⟩
          · simp only [Option.some.injEq, List.cons.injEq] at h
            obtain ⟨rfl, rfl⟩ := h
            rfl
          · simp [extract_content_from_deplot_response]

/-- Witness for C7 at a one-choice response and an empty-choices response. -/
theorem c7_http_parse_witness :
    extract_content_from_deplot_response
        (DeplotHttpResponse.mk (some [DeplotChoice.mk (DeplotChoiceMessage.mk "42,17")])) =
      Except.ok "42,17" ∧
    (extract_content_from_deplot_response (DeplotHttpResponse.mk (some [])) =
        Except.error DeplotError.malformedResponse) :=
  ⟨(c7_http_parse _).1 (DeplotChoice.mk (DeplotChoiceMessage.mk "42,17")) [] rfl,
    (c7_http_parse _).2.mpr (Or.inr rfl)⟩

/-- Claim C8: binary-protocol parsing produces exactly one string per response
element, preserving order: a list of byte strings is mapped to its decoded
members joined with a single space, a single byte string is decoded, and any
other value is stringified directly. -/
theorem c8_grpc_parse (dec : ByteString → String) (response : List GrpcItem) :
    (parse_output_grpc dec response).length = response.length ∧
    ∀ (i : Nat) (hi : i < (parse_output_grpc dec response).length)
      (hi2 : i < response.length),
      (parse_output_grpc dec response).get ⟨i, hi⟩ =
        match response.get ⟨i, hi2⟩ with
        | GrpcItem.byteList l => String.intercalate " " (l.map dec)
        | GrpcItem.bytes b => dec b
        | GrpcItem.other s => s := by
  refine ⟨List.length_map _ _, ?_⟩
  intro i hi hi2
  simp only [parse_output_grpc, List.get_eq_getElem, List.getElem_map]
  cases h2 : response[i] <;> rfl

/-- Witness for C8 at a three-element response: a list of two byte strings, a
single byte string, and a plain string. -/
theorem c8_grpc_parse_witness :
    (parse_output_grpc (fun b => String.mk (b.map Char.ofNat))
      [GrpcItem.byteList [[104, 105], [121, 111]], GrpcItem.bytes [104, 105],
        GrpcItem.other "raw"]).length = 3 ∧
    (parse_output_grpc (fun b => String.mk (b.map Char.ofNat))
      [GrpcItem.byteList [[104, 105], [121, 111]], GrpcItem.bytes [104, 105],
        GrpcItem.other "raw"]).get ⟨0, by decide⟩ = "hi yo" := by
  refine ⟨((c8_grpc_parse _ _).1).trans rfl,
    ((c8_grpc_parse (fun b => String.mk (b.map Char.ofNat))
      [GrpcItem.byteList [[104, 105], [121, 111]], GrpcItem.bytes [104, 105],
        GrpcItem.other "raw"]).2 0 (by decide) (by decide)).trans ?_⟩
  decide

/-- Claim C9: purity and frame. The embedding of every adapter operation is a
plain function of its explicit inputs (the adapter object keeps no state, so no
state threads through these definitions); the mapping returned by a successful
`prepare_data_for_inference` agrees with the input mapping on both pre-existing
keys (`base64_image`, `base64_images`), only `image_arrays` being set; and
`process_inference_results` returns its input unchanged. -/
theorem c9_purity_frame (decode : String → NDArray) (d d2 : InputData)
    (h : prepare_data_for_inference decode d = Except.ok d2) :
    d2.base64_image = d.base64_image ∧ d2.base64_images = d.base64_images ∧
    (∀ (out : List String) (protocol : String),
      process_inference_results out protocol = out) := by
  have hf : d2.base64_image = d.base64_image ∧ d2.base64_images = d.base64_images := by
    rcases hd : d.base64_images with _ | v
    · rcases hi : d.base64_image with _ | s
      · rw [prepare_data_for_inference, hd, hi] at h
        cases h
      · rw [prepare_data_for_inference, hd, hi] at h
        injection h with h2
        rw [← h2]
        exact ⟨rfl, rfl⟩
    · cases v with
      | strList l =>
          rw [prepare_data_for_inference, hd] at h
          injection h with h2
          rw [← h2]
          exact ⟨rfl, rfl⟩
      | nonList =>
          rw [prepare_data_for_inference, hd] at h
          cases h
  exact ⟨hf.1, hf.2, fun out protocol => rfl⟩

/-- Witness for C9 at a single-image mapping and a constant decoder. -/
theorem c9_purity_frame_witness :
    (InputData.mk (some "img") none
        (some [NDArray.mk [1, 1, 3] [1, 2, 3]])).base64_image =
      (InputData.mk (some "img") none none).base64_image ∧
    (InputData.mk (some "img") none
        (some [NDArray.mk [1, 1, 3] [1, 2, 3]])).base64_images =
      (InputData.mk (some "img") none none).base64_images ∧
    (∀ (out : List String) (protocol : String),
      process_inference_results out protocol = out) :=
  c9_purity_frame (fun _ => NDArray.mk [1, 1, 3] [1, 2, 3])
    (InputData.mk (some "img") none none)
    (InputData.mk (some "img") none (some [NDArray.mk [1, 1, 3] [1, 2, 3]])) rfl

/-- Claim C10 (implicit key precedence): when both `base64_images` and
`base64_image` are present, `prepare_data_for_inference` decodes only the list
under `base64_images` (the single image never enters `image_arrays`), and the
HTTP `format_input` builds its payloads only from the `base64_images` list. -/
theorem c10_key_precedence (decode : String → NDArray) (data : InputData)
    (l : List String) (s : String) (arrs : List NDArray) (C : Nat)
    (hboth : data.base64_images = some (B64ImagesVal.strList l))
    (_hsingle : data.base64_image = some s)
    (himg : data.image_arrays = some arrs) :
    prepare_data_for_inference decode data =
      Except.ok (InputData.mk data.base64_image data.base64_images
        (some (l.map decode))) ∧
    format_input data "http" C (GenParams.mk none none none) =
      Except.ok (FormattedInput.httpPayloads ((chunk_list l C).map (fun chunk =>
        prepare_deplot_payload chunk 500 (1/2) (9/10)))) := by
  constructor
  · rw [prepare_data_for_inference, hboth]
  · simp only [format_input, himg, hboth]
    rw [if_neg (by simp), if_pos trivial]
    rfl

/-- Witness for C10 at a mapping holding both keys. -/
theorem c10_key_precedence_witness :
    prepare_data_for_inference (fun _ => NDArray.mk [1, 1, 3] [7, 7, 7])
        (InputData.mk (some "single") (some (B64ImagesVal.strList ["x", "y"]))
          (some [])) =
      Except.ok (InputData.mk
        (InputData.mk (some "single") (some (B64ImagesVal.strList ["x", "y"]))
          (some [])).base64_image
        (InputData.mk (some "single") (some (B64ImagesVal.strList ["x", "y"]))
          (some [])).base64_images
        (some (["x", "y"].map (fun _ => NDArray.mk [1, 1, 3] [7, 7, 7])))) ∧
    format_input
        (InputData.mk (some "single") (some (B64ImagesVal.strList ["x", "y"]))
          (some [])) "http" 5 (GenParams.mk none none none) =
      Except.ok (FormattedInput.httpPayloads
        ((chunk_list ["x", "y"] 5).map (fun chunk =>
          prepare_deplot_payload chunk 500 (1/2) (9/10)))) :=
  c10_key_precedence (fun _ => NDArray.mk [1, 1, 3] [7, 7, 7]) _ ["x", "y"]
    "single" [] 5 rfl rfl rfl
